import Mathlib

/-
Verification development for the iterative-solver library (package `iterative`).

The repository is shallowly embedded over the real numbers: `float64` values
become `ℝ` and floating-point arithmetic is modelled as exact real arithmetic
(rounding, overflow, NaN and ±Inf behaviour are outside the model).  Go slices
of float64 become `List ℝ` with value semantics: in-place mutation becomes
explicit state passing.  Go `panic` is modelled as an `Option`-`none` (or a
dedicated `panic` constructor) outcome; a Go function value that may be `nil`
becomes an `Option` of a function, and calling a `nil` function is a panic.

Reverse communication: in Go a method hands the driver slices (`ctx.Src`,
`ctx.Dst`) that alias the method's private buffers, and the driver writes its
reply in place.  In the embedding `ctx.Src` and `ctx.Dst` carry values; the
driver puts its reply into `ctx.Dst`, and the method stores that value into the
designated private field at the start of the resume case that follows the
request.  The observable request/reply protocol is unchanged.

The snapshot contains several generations of the driver.  The definitions named
as in the source embed the newest one (solve.go together with bicg.go and the
BiCGSTAB/GMRES file); the older driver from iterative.go, whose loop body is
textually identical but which panics on zero dimension and defaults the
tolerance to 1e-8, is embedded in namespace `OldAPI`.  iterative.go's Settings
lacks the NormA field; since no driver ever reads NormA, the Settings record is
shared.  The middle-generation method CG (cg.go), which communicates through
`ctx.Vectors` and integer `Src`/`Dst` indices, gets its own context type
`ContextV`.
-/

noncomputable section

abbrev Vec := List ℝ

/-- floats.Dot: sum of pairwise products. -/
def dot (x y : Vec) : ℝ := (List.zipWith (fun a b => a * b) x y).sum

/-- floats.Norm(x, 2): Euclidean norm. -/
def norm2 (x : Vec) : ℝ := Real.sqrt (dot x x)

/-- floats.AddScaled(y, alpha, x): y += alpha*x (returns the new y). -/
def addScaled (y : Vec) (alpha : ℝ) (x : Vec) : Vec :=
  List.zipWith (fun yi xi => yi + alpha * xi) y x

/-- floats.AddScaledTo(dst, y, alpha, x): dst = y + alpha*x; dst is fully
overwritten, so only y, alpha and x matter. -/
def addScaledTo (y : Vec) (alpha : ℝ) (x : Vec) : Vec :=
  List.zipWith (fun yi xi => yi + alpha * xi) y x

/-- floats.Add(y, x): y += x. -/
def add (y : Vec) (x : Vec) : Vec := List.zipWith (fun a b => a + b) y x

/-- floats.Scale(alpha, x): x *= alpha. -/
def scale (alpha : ℝ) (x : Vec) : Vec := x.map (fun xi => alpha * xi)

/-- Go copy(dst, src): overwrite the first min(len dst, len src) entries of dst
with those of src, keep the rest of dst. -/
def copyVec (dst src : Vec) : Vec :=
  let m := min dst.length src.length
  src.take m ++ dst.drop m

/-- reuse(v, n) from the driver file: a slice of length n, reusing v when it is
long enough (capacity is modelled as length). -/
def reuseVec (v : Vec) (n : ℕ) : Vec :=
  if v.length < n then List.replicate n 0 else v.take n

/-- Go slice expression v[off : off+n]. -/
def seg (v : Vec) (off n : ℕ) : Vec := (v.drop off).take n

/-- Writing the vector w into v starting at offset off (in-place slice write). -/
def setSeg (v : Vec) (off : ℕ) (w : Vec) : Vec :=
  v.take off ++ w ++ v.drop (off + w.length)

/-- const dlamchE = 1.0 / (1 << 53): the machine epsilon 2^(-53), exact. -/
def dlamchE : ℝ := 1 / 2 ^ 53

/-- The Operation codes a Method can command.  The union of the codes used by
the generations present in the snapshot; the newest driver's switch covers all
but CheckResidual, which falls to its default (panic) arm. -/
inductive Operation where
  | NoOperation
  | MatVec
  | MatTransVec
  | PSolve
  | PSolveTrans
  | ComputeResidual
  | CheckResidualNorm
  | CheckResidual
  | EndIteration
  deriving DecidableEq, Repr

/-- The error values the library itself creates (errors.New calls in the
source), plus `user` for opaque errors returned by user preconditioner
callbacks and propagated verbatim. -/
inductive Err where
  | rhoBreakdown
  | omegaBreakdown
  | iterationLimit
  | user : ℕ → Err
  deriving DecidableEq, Repr

/-- Context from solve.go / iterative.go (Src and Dst carry values, see the
header note on reverse communication). -/
structure Context where
  X : Vec
  Residual : Vec
  ResidualNorm : ℝ
  Converged : Bool
  Src : Vec
  Dst : Vec

/-- Stats (the wall-clock fields StartTime/Runtime are outside the model). -/
structure Stats where
  Iterations : ℕ := 0
  MatVec : ℕ := 0
  PSolve : ℕ := 0
  ResidualNorm : ℝ := 0

structure Result where
  X : Vec
  Stats : Stats

/-- A preconditioner callback PSolve(dst, rhs): receives the dst buffer and the
right-hand side, returns the new dst contents and an error. -/
def PCallback : Type := Vec → Vec → Vec × Option Err

/-- Settings from solve.go.  (iterative.go's Settings lacks NormA; the record
is shared because no driver reads NormA.) -/
structure Settings where
  X0 : Option Vec := none
  Tolerance : ℝ := 0
  NormA : ℝ := 0
  MaxIterations : ℕ := 0
  PSolve : Option PCallback := none
  PSolveTrans : Option PCallback := none

/-- MatrixOps; MatTransVec may be nil. MatVec is also optional so that the
driver's nil check is representable. -/
structure MatrixOps where
  MatVec : Option (Vec → Vec)
  MatTransVec : Option (Vec → Vec)

/-- One step of a method: new private state, new context, commanded operation
and error.  A `none` result is a Go panic. -/
structure MOut (σ : Type) where
  st : σ
  ctx : Context
  op : Operation
  err : Option Err

/-- The Method interface (Init panic modelled as `none`). -/
structure Method (σ : Type) where
  init : σ → ℕ → Option σ
  iterate : σ → Context → Option (MOut σ)

/-- Result of servicing one commanded operation in the driver's switch. -/
inductive DRes where
  | dcont (ctx : Context) (stats : Stats)
  | dret (err : Option Err) (ctx : Context) (stats : Stats)
  | dpanic

/-- Outcome of the driver loop `iterate`: normal return (error or nil) with the
final context and stats, or panic. -/
inductive LoopRes where
  | panic
  | ret (err : Option Err) (ctx : Context) (stats : Stats)

/-- Outcome of LinearSolve / Solve. -/
inductive SolveRes where
  | panic
  | ok (res : Result) (err : Option Err)

/-- The body of the switch in func iterate (solve.go lines 208-254 /
iterative.go lines 260-306): service one operation.  The default arm (hit by
any code outside the eight the switch names, e.g. CheckResidual) panics. -/
def dispatch (op : Operation) (a : MatrixOps) (b : Vec) (bnorm : ℝ)
    (settings : Settings) (ctx : Context) (stats : Stats) : DRes :=
  match op with
  | .NoOperation => .dcont ctx stats
  | .ComputeResidual =>
    match a.MatVec with
    | none => .dpanic
    | some f =>
      .dcont { ctx with Residual := addScaledTo b (-1) (f ctx.X) }
        { stats with MatVec := stats.MatVec + 1 }
  | .MatVec =>
    match a.MatVec with
    | none => .dpanic
    | some f =>
      .dcont { ctx with Dst := f ctx.Src } { stats with MatVec := stats.MatVec + 1 }
  | .MatTransVec =>
    match a.MatTransVec with
    | none => .dpanic
    | some f =>
      .dcont { ctx with Dst := f ctx.Src } { stats with MatVec := stats.MatVec + 1 }
  | .PSolve =>
    match settings.PSolve with
    | none => .dcont { ctx with Dst := copyVec ctx.Dst ctx.Src } stats
    | some p =>
      let r := p ctx.Dst ctx.Src
      match r.2 with
      | some e => .dret (some e) { ctx with Dst := r.1 } stats
      | none => .dcont { ctx with Dst := r.1 } { stats with PSolve := stats.PSolve + 1 }
  | .PSolveTrans =>
    match settings.PSolve with
    | none => .dcont { ctx with Dst := copyVec ctx.Dst ctx.Src } stats
    | some _ =>
      match settings.PSolveTrans with
      | none => .dpanic
      | some p =>
        let r := p ctx.Dst ctx.Src
        match r.2 with
        | some e => .dret (some e) { ctx with Dst := r.1 } stats
        | none => .dcont { ctx with Dst := r.1 } { stats with PSolve := stats.PSolve + 1 }
  | .CheckResidualNorm =>
    .dcont
      { ctx with Converged :=
          if ctx.ResidualNorm / bnorm < settings.Tolerance then true else false }
      stats
  | .EndIteration =>
    let stats' := { stats with Iterations := stats.Iterations + 1,
                               ResidualNorm := ctx.ResidualNorm }
    if ctx.Converged then .dret none ctx stats'
    else if stats'.Iterations = settings.MaxIterations then
      .dret (some .iterationLimit) ctx stats'
    else .dcont ctx stats'
  | _ => .dpanic

/-- bnorm as computed at the top of func iterate: the 2-norm of b, replaced by
1 when it is zero. -/
def bnormOf (b : Vec) : ℝ :=
  let n := norm2 b
  if n = 0 then 1 else n

/-- The infinite for-loop of func iterate, with fuel; running out of fuel is
`none` (the Go loop would still be running). -/
def iterLoop (a : MatrixOps) (b : Vec) (settings : Settings) {σ : Type}
    (m : Method σ) (bnorm : ℝ) :
    ℕ → σ → Context → Stats → Option LoopRes
  | 0, _, _, _ => none
  | fuel + 1, s, ctx, stats =>
    match m.iterate s ctx with
    | none => some .panic
    | some out =>
      match out.err with
      | some e => some (.ret (some e) out.ctx stats)
      | none =>
        match dispatch out.op a b bnorm settings out.ctx stats with
        | .dpanic => some .panic
        | .dret e ctx' stats' => some (.ret e ctx' stats')
        | .dcont ctx' stats' => iterLoop a b settings m bnorm fuel out.st ctx' stats'

/-- func iterate (solve.go lines 193-256, identical in iterative.go): compute
bnorm, call method.Init, and run the loop. -/
def iterate (a : MatrixOps) (b : Vec) (ctx : Context) (settings : Settings)
    {σ : Type} (m : Method σ) (s₀ : σ) (stats : Stats) (fuel : ℕ) :
    Option LoopRes :=
  let bnorm := bnormOf b
  match m.init s₀ ctx.X.length with
  | none => some .panic
  | some s1 => iterLoop a b settings m bnorm fuel s1 ctx stats

/-- defaultSettings from solve.go (lines 94-101): unset tolerance becomes 1e-6,
unset iteration limit becomes 2*dim. -/
def defaultSettings (s : Settings) (dim : ℕ) : Settings :=
  let s1 := if s.Tolerance = 0 then { s with Tolerance := 1e-6 } else s
  if s1.MaxIterations = 0 then { s1 with MaxIterations := 2 * dim } else s1

/-- The initial approximation built by the driver: X0 copied over a zero vector
of the system dimension, or the zero vector. -/
def initialX (dim : ℕ) (x0 : Option Vec) : Vec :=
  match x0 with
  | none => List.replicate dim 0
  | some v => copyVec (List.replicate dim 0) v

/-- The initial residual built by the driver: b - A*x0 when X0 is given
(computed with one MatVec), else a copy of b. -/
def initialResidual (f : Vec → Vec) (b : Vec) (x0 : Option Vec) : Vec :=
  match x0 with
  | none => copyVec (List.replicate b.length 0) b
  | some _ => addScaledTo b (-1) (f (initialX b.length x0))

/-- How the driver turns the outcome of its loop into its own return value:
Result carries the final x and stats, the error is returned alongside, and a
panic or still-running loop passes through. -/
def wrapLoop (o : Option LoopRes) : Option SolveRes :=
  match o with
  | none => none
  | some .panic => some .panic
  | some (.ret e ctx' stats') => some (.ok ⟨ctx'.X, stats'⟩ e)

/-- The X0 validation: settings.X0 != nil && len(settings.X0) != dim. -/
def x0Mismatch (x0 : Option Vec) (dim : ℕ) : Bool :=
  match x0 with
  | some v => v.length != dim
  | none => false

/-- LinearSolve from solve.go (lines 147-191). -/
def LinearSolve (a : MatrixOps) (b : Vec) {σ : Type} (m : Method σ) (s₀ : σ)
    (settings : Settings) (fuel : ℕ) : Option SolveRes :=
  let stats : Stats := {}
  let dim := b.length
  match a.MatVec with
  | none => some .panic
  | some f =>
    if x0Mismatch settings.X0 dim then some .panic
    else if dim = 0 then some (.ok ⟨[], stats⟩ none)
    else
      let settings := defaultSettings settings dim
      if settings.Tolerance < dlamchE ∨ 1 ≤ settings.Tolerance then some .panic
      else
        let stats1 : Stats :=
          match settings.X0 with
          | some _ => { stats with MatVec := stats.MatVec + 1 }
          | none => stats
        let ctx : Context :=
          { X := initialX dim settings.X0
            Residual := initialResidual f b settings.X0
            ResidualNorm := norm2 (initialResidual f b settings.X0)
            Converged := false, Src := [], Dst := [] }
        if ctx.ResidualNorm ≥ settings.Tolerance then
          wrapLoop (iterate a b ctx settings m s₀ stats1 fuel)
        else some (.ok ⟨ctx.X, stats1⟩ none)

namespace OldAPI

/-- defaultSettings from iterative.go (lines 316-323): unset tolerance becomes
1e-8. -/
def defaultSettings (s : Settings) (dim : ℕ) : Settings :=
  let s1 := if s.Tolerance = 0 then { s with Tolerance := 1e-8 } else s
  if s1.MaxIterations = 0 then { s1 with MaxIterations := 2 * dim } else s1

/-- Solve from iterative.go (lines 201-243): unlike LinearSolve it panics on a
zero-dimension system; its loop is the shared func iterate. -/
def Solve (a : MatrixOps) (b : Vec) {σ : Type} (m : Method σ) (s₀ : σ)
    (settings : Settings) (fuel : ℕ) : Option SolveRes :=
  let stats : Stats := {}
  let dim := b.length
  if dim = 0 then some .panic
  else
    match a.MatVec with
    | none => some .panic
    | some f =>
      if x0Mismatch settings.X0 dim then some .panic
      else
        let settings := OldAPI.defaultSettings settings dim
        if settings.Tolerance < dlamchE ∨ 1 ≤ settings.Tolerance then some .panic
        else
          let stats1 : Stats :=
            match settings.X0 with
            | some _ => { stats with MatVec := stats.MatVec + 1 }
            | none => stats
          let ctx : Context :=
            { X := initialX dim settings.X0
              Residual := initialResidual f b settings.X0
              ResidualNorm := norm2 (initialResidual f b settings.X0)
              Converged := false, Src := [], Dst := [] }
          if ctx.ResidualNorm ≥ settings.Tolerance then
            wrapLoop (iterate a b ctx settings m s₀ stats1 fuel)
          else some (.ok ⟨ctx.X, stats1⟩ none)

end OldAPI

/-- BiCGSTAB (newest generation, the file holding BiCGSTAB and GMRES).  Field
defaults are the Go zero value of the struct. -/
structure BiCGSTAB where
  first : Bool := false
  resume : ℕ := 0
  rho : ℝ := 0
  rhoPrev : ℝ := 0
  alpha : ℝ := 0
  omega : ℝ := 0
  rt : Vec := []
  p : Vec := []
  v : Vec := []
  t : Vec := []
  phat : Vec := []
  s : Vec := []
  shat : Vec := []

/-- BiCGSTAB.Init: panics (none) on non-positive dim, else sizes the buffers
and resets the resume label. -/
def BiCGSTAB.Init (bb : BiCGSTAB) (dim : ℕ) : Option BiCGSTAB :=
  if dim = 0 then none
  else some { bb with
    rt := reuseVec bb.rt dim, p := reuseVec bb.p dim, v := reuseVec bb.v dim,
    t := reuseVec bb.t dim, phat := reuseVec bb.phat dim, s := reuseVec bb.s dim,
    shat := reuseVec bb.shat dim, first := true, resume := 1 }

/-- BiCGSTAB.Iterate: the resume-label switch.  A resume value outside 1..7
(in particular 0, set on rho breakdown or converged EndIteration) panics. -/
def BiCGSTAB.Iterate (bb : BiCGSTAB) (ctx : Context) : Option (MOut BiCGSTAB) :=
  if bb.resume = 1 then
    let rt := if bb.first then copyVec bb.rt ctx.Residual else bb.rt
    let rho := dot rt ctx.Residual
    if rho < dlamchE * dlamchE then
      some ⟨{ bb with rt := rt, rho := rho, resume := 0 }, ctx, .NoOperation,
            some .rhoBreakdown⟩
    else
      let p := if bb.first then copyVec bb.p ctx.Residual
        else
          let beta := (rho / bb.rhoPrev) * (bb.alpha / bb.omega)
          add (scale beta (addScaled bb.p (-bb.omega) bb.v)) ctx.Residual
      some ⟨{ bb with rt := rt, rho := rho, p := p, resume := 2 },
            { ctx with Src := p, Dst := bb.phat }, .PSolve, none⟩
  else if bb.resume = 2 then
    let phat := ctx.Dst
    some ⟨{ bb with phat := phat, resume := 3 },
          { ctx with Src := phat, Dst := bb.v }, .MatVec, none⟩
  else if bb.resume = 3 then
    let v := ctx.Dst
    let alpha := bb.rho / dot bb.rt v
    let R := addScaled ctx.Residual (-alpha) v
    some ⟨{ bb with v := v, alpha := alpha, s := copyVec bb.s R, resume := 4 },
          { ctx with Residual := R, Src := [], Dst := [],
                     ResidualNorm := norm2 R, Converged := false },
          .CheckResidualNorm, none⟩
  else if bb.resume = 4 then
    if ctx.Converged then
      some ⟨{ bb with resume := 0 },
            { ctx with X := addScaled ctx.X bb.alpha bb.phat }, .EndIteration, none⟩
    else
      some ⟨{ bb with resume := 5 },
            { ctx with Src := ctx.Residual, Dst := bb.shat }, .PSolve, none⟩
  else if bb.resume = 5 then
    let shat := ctx.Dst
    some ⟨{ bb with shat := shat, resume := 6 },
          { ctx with Src := shat, Dst := bb.t }, .MatVec, none⟩
  else if bb.resume = 6 then
    let t := ctx.Dst
    let omega := dot t bb.s / dot t t
    let X := addScaled (addScaled ctx.X bb.alpha bb.phat) omega bb.shat
    let R := addScaled ctx.Residual (-omega) t
    some ⟨{ bb with t := t, omega := omega, resume := 7 },
          { ctx with X := X, Residual := R, Src := [], Dst := [],
                     ResidualNorm := norm2 R, Converged := false },
          .CheckResidualNorm, none⟩
  else if bb.resume = 7 then
    if ctx.Converged then
      some ⟨{ bb with resume := 0 }, ctx, .EndIteration, none⟩
    else if |bb.omega| < dlamchE * dlamchE then
      some ⟨bb, ctx, .NoOperation, some .omegaBreakdown⟩
    else
      some ⟨{ bb with rhoPrev := bb.rho, first := false, resume := 1 }, ctx,
            .EndIteration, none⟩
  else none

/-- The BiCGSTAB method packaged for the driver. -/
def BiCGSTAB.method : Method BiCGSTAB := ⟨BiCGSTAB.Init, BiCGSTAB.Iterate⟩

/-- BiCG from bicg.go. -/
structure BiCG where
  first : Bool := false
  resume : ℕ := 0
  rho : ℝ := 0
  rhoPrev : ℝ := 0
  alpha : ℝ := 0
  rt : Vec := []
  z : Vec := []
  zt : Vec := []
  p : Vec := []
  pt : Vec := []

/-- BiCG.Init (bicg.go lines 34-47). -/
def BiCG.Init (bb : BiCG) (dim : ℕ) : Option BiCG :=
  if dim = 0 then none
  else some { bb with
    rt := reuseVec bb.rt dim, z := reuseVec bb.z dim, zt := reuseVec bb.zt dim,
    p := reuseVec bb.p dim, pt := reuseVec bb.pt dim, first := true, resume := 1 }

/-- BiCG.Iterate (bicg.go lines 50-117).  The driver's replies to PSolve,
PSolveTrans, MatVec and MatTransVec land in z and zt (q and qt alias them). -/
def BiCG.Iterate (bb : BiCG) (ctx : Context) : Option (MOut BiCG) :=
  if bb.resume = 1 then
    let rt := if bb.first then copyVec bb.rt ctx.Residual else bb.rt
    some ⟨{ bb with rt := rt, resume := 2 },
          { ctx with Src := ctx.Residual, Dst := bb.z }, .PSolve, none⟩
  else if bb.resume = 2 then
    let z := ctx.Dst
    some ⟨{ bb with z := z, resume := 3 },
          { ctx with Src := bb.rt, Dst := bb.zt }, .PSolveTrans, none⟩
  else if bb.resume = 3 then
    let zt := ctx.Dst
    let rho := dot bb.z bb.rt
    if |rho| < dlamchE * dlamchE then
      some ⟨{ bb with zt := zt, rho := rho, resume := 0 }, ctx, .NoOperation,
            some .rhoBreakdown⟩
    else
      let z := if bb.first then bb.z else addScaled bb.z (rho / bb.rhoPrev) bb.p
      let zt' := if bb.first then zt else addScaled zt (rho / bb.rhoPrev) bb.pt
      let p := copyVec bb.p z
      let pt := copyVec bb.pt zt'
      some ⟨{ bb with z := z, zt := zt', rho := rho, p := p, pt := pt, resume := 4 },
            { ctx with Src := p, Dst := z }, .MatVec, none⟩
  else if bb.resume = 4 then
    let q := ctx.Dst
    some ⟨{ bb with z := q, resume := 5 },
          { ctx with Src := bb.pt, Dst := bb.zt }, .MatTransVec, none⟩
  else if bb.resume = 5 then
    let qt := ctx.Dst
    let alpha := bb.rho / dot bb.pt bb.z
    let X := addScaled ctx.X alpha bb.p
    let R := addScaled ctx.Residual (-alpha) bb.z
    some ⟨{ bb with zt := qt, alpha := alpha, resume := 6 },
          { ctx with X := X, Residual := R, Src := [], Dst := [],
                     ResidualNorm := norm2 R, Converged := false },
          .CheckResidualNorm, none⟩
  else if bb.resume = 6 then
    if ctx.Converged then
      some ⟨{ bb with resume := 0 }, ctx, .EndIteration, none⟩
    else
      some ⟨{ bb with rt := addScaled bb.rt (-bb.alpha) bb.zt,
                      rhoPrev := bb.rho, first := false, resume := 1 }, ctx,
            .EndIteration, none⟩
  else none

/-- The BiCG method packaged for the driver. -/
def BiCG.method : Method BiCG := ⟨BiCG.Init, BiCG.Iterate⟩

/-- Context of the middle-generation API used by cg.go: vectors live in
ctx.Vectors and Src/Dst are integer indices into it (-1 when unused). -/
structure ContextV where
  X : Vec
  Residual : Vec
  Converged : Bool
  Vectors : List Vec
  Src : ℤ
  Dst : ℤ

/-- One step of a middle-generation method. -/
structure MOutV (σ : Type) where
  st : σ
  ctx : ContextV
  op : Operation
  err : Option Err

/-- CG from cg.go (middle generation). -/
structure CG where
  first : Bool := false
  rho : ℝ := 0
  rhoPrev : ℝ := 0
  resume : ℕ := 0

/-- CG.Init: resets the state and asks for 4 work vectors (r, z, p, Ap). -/
def CG.Init (cg : CG) (_dim : ℕ) : CG × ℕ :=
  ({ cg with first := true, resume := 1 }, 4)

/-- CG.Iterate (cg.go lines 21-78); work-vector indices ri=0, zi=1, pi=2,
Api=3.  Resume 0 (set after a converged EndIteration) panics. -/
def CG.Iterate (cg : CG) (ctx : ContextV) : Option (MOutV CG) :=
  let r := ctx.Vectors.getD 0 []
  if cg.resume = 1 then
    let r := if cg.first then copyVec r ctx.Residual else r
    some ⟨{ cg with resume := 2 },
          { ctx with Vectors := ctx.Vectors.set 0 r, Src := 0, Dst := 1 },
          .PSolve, none⟩
  else if cg.resume = 2 then
    let z := ctx.Vectors.getD 1 []
    let p := ctx.Vectors.getD 2 []
    let rho := dot r z
    let z := if cg.first then z else addScaled z (rho / cg.rhoPrev) p
    let p := copyVec p z
    some ⟨{ cg with rho := rho, resume := 3 },
          { ctx with Vectors := (ctx.Vectors.set 1 z).set 2 p, Src := 2, Dst := 3 },
          .MatVec, none⟩
  else if cg.resume = 3 then
    let p := ctx.Vectors.getD 2 []
    let Ap := ctx.Vectors.getD 3 []
    let alpha := cg.rho / dot p Ap
    let r := addScaled r (-alpha) Ap
    let X := addScaled ctx.X alpha p
    some ⟨{ cg with resume := 4 },
          { ctx with Vectors := ctx.Vectors.set 0 r, X := X,
                     Residual := copyVec ctx.Residual r,
                     Src := -1, Dst := -1, Converged := false },
          .CheckResidual, none⟩
  else if cg.resume = 4 then
    if ctx.Converged then
      some ⟨{ cg with resume := 0 }, ctx, .EndIteration, none⟩
    else
      some ⟨{ cg with rhoPrev := cg.rho, first := false, resume := 1 }, ctx,
            .EndIteration, none⟩
  else none

/-- A Givens rotation (c, s). -/
structure Givens where
  c : ℝ
  s : ℝ

/-- drotg from the GMRES file: the Givens rotation zeroing the second entry. -/
def drotg (a b : ℝ) : Givens :=
  if b = 0 then ⟨1, 0⟩
  else if |b| > |a| then
    let tmp := -a / b
    let s := 1 / Real.sqrt (1 + tmp * tmp)
    ⟨tmp * s, s⟩
  else
    let tmp := -b / a
    let c := 1 / Real.sqrt (1 + tmp * tmp)
    ⟨c, tmp * c⟩

/-- rotvec: apply a Givens rotation to the pair (x, y). -/
def rotvec (x y : ℝ) (g : Givens) : ℝ × ℝ :=
  (g.c * x - g.s * y, g.s * x + g.c * y)

/-- blas64 Dtrsv with Lower, Trans, NonUnit on the row-major n×n matrix a with
leading dimension lda: solve Aᵀ x = b in place by back substitution,
top-down index i reading a[j*lda+i] for j > i. -/
def dtrsv (n : ℕ) (a : Vec) (lda : ℕ) (x : Vec) : Vec :=
  (List.range n).reverse.foldl
    (fun x idx =>
      let ssum := ((List.range (n - idx - 1)).map
        (fun tt => let j := idx + 1 + tt; a.getD (j * lda + idx) 0 * x.getD j 0)).sum
      x.set idx ((x.getD idx 0 - ssum) / a.getD (idx * lda + idx) 0))
    x

/-- GMRES (newest generation). -/
structure GMRES where
  Restart : ℕ := 0
  resume : ℕ := 0
  i : ℕ := 0
  s : Vec := []
  w : Vec := []
  y : Vec := []
  av : Vec := []
  v : Vec := []
  ldv : ℕ := 0
  h : Vec := []
  ldh : ℕ := 0
  givs : List Givens := []

/-- GMRES.Init: size the workspace, the Arnoldi basis V (ldv·(Restart+1)
flat), the Hessenberg storage H (ldh·Restart flat) and the rotations. -/
def GMRES.Init (g : GMRES) (dim : ℕ) : Option GMRES :=
  if dim = 0 then none
  else
    let g := if g.Restart = 0 then { g with Restart := dim } else g
    if g.Restart = 0 ∨ dim < g.Restart then none
    else
      let k := g.Restart
      some { g with
        s := reuseVec g.s dim, w := reuseVec g.w dim, y := reuseVec g.y dim,
        av := reuseVec g.av dim, ldv := dim, v := reuseVec g.v (dim * (k + 1)),
        ldh := k + 1, h := reuseVec g.h ((k + 1) * k),
        givs := if g.givs.length < k then List.replicate k ⟨0, 0⟩ else g.givs.take k,
        resume := 1 }

/-- GMRES.update: copy s[:i+1] into y, solve the triangular system with Dtrsv
(H is column-major upper triangular, leading dimension Restart+1), and add
Σ y_j·V[:,j] to x.  Returns the updated method state (y is scratch) and x. -/
def GMRES.update (g : GMRES) (x : Vec) : GMRES × Vec :=
  let i := g.i
  let y0 := copyVec (g.y.take (i + 1)) (g.s.take (i + 1))
  let y := dtrsv (i + 1) g.h (g.Restart + 1) y0
  let x' := (List.range (i + 1)).foldl
    (fun acc j => addScaled acc (y.getD j 0) (seg g.v (j * g.ldv) x.length)) x
  ({ g with y := y ++ g.y.drop (i + 1) }, x')

/-- The body of resume case 3 of GMRES.Iterate (the head of the inner Arnoldi
loop); case 2 falls through into it. -/
def GMRES.iterate3 (g : GMRES) (ctx : Context) (n : ℕ) : Option (MOut GMRES) :=
  if g.i = g.Restart then
    some ⟨{ g with resume := 7 }, { ctx with Src := [], Dst := [] },
          .NoOperation, none⟩
  else
    some ⟨{ g with resume := 4 },
          { ctx with Src := seg g.v (g.i * g.ldv) n, Dst := g.av }, .MatVec, none⟩

/-- The body of resume case 5 of GMRES.Iterate: absorb the preconditioned
vector w delivered in ctx.Dst, run modified Gram-Schmidt against columns
0..i of V, store the new Hessenberg column (the source writes the norm of w
at flat index i+1 of h), extend V, apply the stored Givens rotations to the
new column, compute and apply the new rotation to it and to (s[i], s[i+1]).
Returns the updated state and the residual-norm estimate |s[i+1]|. -/
def GMRES.arnoldiStep (g : GMRES) (w0 : Vec) (n : ℕ) : GMRES × ℝ :=
  let ldv := g.ldv
  let i := g.i
  let ldh := g.ldh
  -- modified Gram-Schmidt over columns 0..i
  let hw := (List.range (i + 1)).foldl
    (fun hw k =>
      let vk := seg g.v (k * ldv) n
      let hki := dot vk hw.2
      (hw.1.set (k + i * ldh) hki, addScaled hw.2 (-hki) vk))
    (g.h, w0)
  let w := hw.2
  let wnorm := norm2 w
  -- h[i+1] = wnorm: written at flat index i+1 as in the source
  let h1 := hw.1.set (i + 1) wnorm
  let v1 := setSeg g.v ((i + 1) * ldv)
    (scale (1 / wnorm) (copyVec (seg g.v ((i + 1) * ldv) n) w))
  -- apply the stored i rotations to column i of H (hi[j] = h[i*ldh+j])
  let h2 := (List.range i).foldl
    (fun h j =>
      let rr := rotvec (h.getD (i * ldh + j) 0) (h.getD (i * ldh + j + 1) 0)
        (g.givs.getD j ⟨0, 0⟩)
      (h.set (i * ldh + j) rr.1).set (i * ldh + j + 1) rr.2)
    h1
  let giv := drotg (h2.getD (i * ldh + i) 0) (h2.getD (i * ldh + i + 1) 0)
  let rr := rotvec (h2.getD (i * ldh + i) 0) (h2.getD (i * ldh + i + 1) 0) giv
  let h3 := (h2.set (i * ldh + i) rr.1).set (i * ldh + i + 1) rr.2
  let rs := rotvec (g.s.getD i 0) (g.s.getD (i + 1) 0) giv
  let s1 := (g.s.set i rs.1).set (i + 1) rs.2
  ({ g with w := w, h := h3, v := v1, s := s1, givs := g.givs.set i giv },
   |s1.getD (i + 1) 0|)

/-- GMRES.Iterate: the resume-label switch of the restarted GMRES
state machine (resume 0 and other out-of-range labels panic). -/
def GMRES.Iterate (g : GMRES) (ctx : Context) : Option (MOut GMRES) :=
  let n := ctx.X.length
  if g.resume = 1 then
    some ⟨{ g with resume := 2 },
          { ctx with Src := ctx.Residual, Dst := seg g.v 0 n }, .PSolve, none⟩
  else if g.resume = 2 then
    let v1 := setSeg g.v 0 ctx.Dst
    let rnorm := norm2 (seg v1 0 n)
    let v2 := setSeg v1 0 (scale (1 / rnorm) (seg v1 0 n))
    let s := (List.replicate g.s.length (0 : ℝ)).set 0 rnorm
    GMRES.iterate3 { g with v := v2, s := s, i := 0 } ctx n
  else if g.resume = 3 then
    GMRES.iterate3 g ctx n
  else if g.resume = 4 then
    let av := ctx.Dst
    some ⟨{ g with av := av, resume := 5 },
          { ctx with Src := av, Dst := g.w }, .PSolve, none⟩
  else if g.resume = 5 then
    let gr := GMRES.arnoldiStep g ctx.Dst n
    some ⟨{ gr.1 with resume := 6 },
          { ctx with ResidualNorm := gr.2, Src := [], Dst := [],
                     Converged := false },
          .CheckResidualNorm, none⟩
  else if g.resume = 6 then
    if ctx.Converged then
      let gx := GMRES.update g ctx.X
      some ⟨{ gx.1 with resume := 0 }, { ctx with X := gx.2 }, .EndIteration, none⟩
    else
      some ⟨{ g with i := g.i + 1, resume := 3 }, ctx, .NoOperation, none⟩
  else if g.resume = 7 then
    let gx := GMRES.update g ctx.X
    some ⟨{ gx.1 with resume := 8 }, { ctx with X := gx.2 }, .ComputeResidual, none⟩
  else if g.resume = 8 then
    some ⟨{ g with resume := 9 }, { ctx with Converged := false }, .CheckResidual, none⟩
  else if g.resume = 9 then
    if ctx.Converged then
      some ⟨{ g with resume := 0 }, ctx, .EndIteration, none⟩
    else
      some ⟨{ g with resume := 1 }, ctx, .EndIteration, none⟩
  else none

/-- The GMRES method packaged for the driver. -/
def GMRES.method : Method GMRES := ⟨GMRES.Init, GMRES.Iterate⟩

/-- The convergence predicate as the spec words it: residual norm over
max(two-norm of b, 1) below the tolerance. -/
def specCheckConverged (b : Vec) (rn tol : ℝ) : Prop :=
  rn / max (norm2 b) 1 < tol

/-- The stopping criterion the Settings documentation promises when NormA is
set: residual norm below tolerance times (NormA·normx + normb). -/
def specNormACriterion (normA : ℝ) (x b : Vec) (rn tol : ℝ) : Prop :=
  rn < tol * (normA * norm2 x + norm2 b)

/-- The identity preconditioner callback: copy the right-hand side into dst
and report no error. -/
def copyCB : PCallback := fun dst src => (copyVec dst src, none)

/-- Erase the psolve counter of a Stats record (used to compare runs up to
that counter). -/
def zeroPSStats (st : Stats) : Stats := { st with PSolve := 0 }

/-- Erase the psolve counter inside a dispatch result. -/
def zeroPSD : DRes → DRes
  | .dcont ctx st => .dcont ctx (zeroPSStats st)
  | .dret e ctx st => .dret e ctx (zeroPSStats st)
  | .dpanic => .dpanic

/-- Erase the psolve counter inside a loop outcome. -/
def zeroPSLoop : LoopRes → LoopRes
  | .panic => .panic
  | .ret e ctx st => .ret e ctx (zeroPSStats st)

/-- Erase the psolve counter inside a solve outcome. -/
def zeroPSRes : SolveRes → SolveRes
  | .panic => .panic
  | .ok r e => .ok ⟨r.X, zeroPSStats r.Stats⟩ e

theorem norm2_singleton (a : ℝ) : norm2 [a] = |a| := by
  simp [norm2, dot]
  exact Real.sqrt_mul_self_eq_abs a

theorem dot_replicate_zero (n : ℕ) :
    dot (List.replicate n 0) (List.replicate n 0) = 0 := by
  induction n with
  | zero => simp [dot]
  | succ k ih =>
    simp only [List.replicate_succ, dot, List.zipWith_cons_cons, List.sum_cons] at *
    simp [ih]

theorem norm2_replicate_zero (n : ℕ) : norm2 (List.replicate n 0) = 0 := by
  simp [norm2, dot_replicate_zero]

theorem defaultSettings_Tolerance (s : Settings) (dim : ℕ) :
    (defaultSettings s dim).Tolerance =
      if s.Tolerance = 0 then 1e-6 else s.Tolerance := by
  by_cases h : s.Tolerance = 0 <;>
    simp only [defaultSettings, h, if_true, if_false] <;> split <;> rfl

theorem defaultSettings_X0 (s : Settings) (dim : ℕ) :
    (defaultSettings s dim).X0 = s.X0 := by
  by_cases h1 : s.Tolerance = 0 <;>
    simp only [defaultSettings, h1, if_true, if_false] <;> split <;> rfl

theorem defaultSettings_PSolve (s : Settings) (dim : ℕ) :
    (defaultSettings s dim).PSolve = s.PSolve := by
  by_cases h1 : s.Tolerance = 0 <;>
    simp only [defaultSettings, h1, if_true, if_false] <;> split <;> rfl

theorem defaultSettings_PSolveTrans (s : Settings) (dim : ℕ) :
    (defaultSettings s dim).PSolveTrans = s.PSolveTrans := by
  by_cases h1 : s.Tolerance = 0 <;>
    simp only [defaultSettings, h1, if_true, if_false] <;> split <;> rfl

theorem oldDefaultSettings_Tolerance (s : Settings) (dim : ℕ) :
    (OldAPI.defaultSettings s dim).Tolerance =
      if s.Tolerance = 0 then 1e-8 else s.Tolerance := by
  by_cases h : s.Tolerance = 0 <;>
    simp only [OldAPI.defaultSettings, h, if_true, if_false] <;> split <;> rfl

theorem addScaledTo_cancel (b : Vec) :
    addScaledTo b (-1) b = List.replicate b.length 0 := by
  induction b with
  | nil => simp [addScaledTo]
  | cons h t ih =>
    simp only [addScaledTo, List.zipWith_cons_cons, List.length_cons,
      List.replicate_succ] at *
    rw [ih]
    norm_num

theorem dispatch_normA (op : Operation) (a : MatrixOps) (b : Vec) (bn ν : ℝ)
    (s : Settings) (ctx : Context) (st : Stats) :
    dispatch op a b bn { s with NormA := ν } ctx st = dispatch op a b bn s ctx st := by
  cases op <;> rfl

theorem iterLoop_normA {σ : Type} (a : MatrixOps) (b : Vec) (s : Settings) (ν : ℝ)
    (m : Method σ) (bn : ℝ) :
    ∀ (fuel : ℕ) (st : σ) (ctx : Context) (stats : Stats),
      iterLoop a b { s with NormA := ν } m bn fuel st ctx stats =
        iterLoop a b s m bn fuel st ctx stats := by
  intro fuel
  induction fuel with
  | zero => intro st ctx stats; rfl
  | succ k ih =>
    intro st ctx stats
    simp only [iterLoop]
    cases hi : m.iterate st ctx with
    | none => rfl
    | some out =>
      dsimp only
      cases he : out.err with
      | some e => rfl
      | none =>
        dsimp only
        rw [dispatch_normA]
        cases hd : dispatch out.op a b bn s out.ctx stats with
        | dcont ctx' stats' => exact ih out.st ctx' stats'
        | dret e ctx' stats' => rfl
        | dpanic => rfl

theorem iterate_normA {σ : Type} (a : MatrixOps) (b : Vec) (ctx : Context)
    (s : Settings) (ν : ℝ) (m : Method σ) (s₀ : σ) (stats : Stats) (fuel : ℕ) :
    iterate a b ctx { s with NormA := ν } m s₀ stats fuel =
      iterate a b ctx s m s₀ stats fuel := by
  simp only [iterate]
  cases m.init s₀ ctx.X.length with
  | none => rfl
  | some s1 => exact iterLoop_normA a b s ν m (bnormOf b) fuel s1 ctx stats

theorem defaultSettings_normA (s : Settings) (ν : ℝ) (dim : ℕ) :
    defaultSettings { s with NormA := ν } dim =
      { defaultSettings s dim with NormA := ν } := by
  by_cases h1 : s.Tolerance = 0 <;> by_cases h2 : s.MaxIterations = 0 <;>
    simp [defaultSettings, h1, h2]

theorem LinearSolve_normA {σ : Type} (a : MatrixOps) (b : Vec) (m : Method σ)
    (s₀ : σ) (s : Settings) (ν : ℝ) (fuel : ℕ) :
    LinearSolve a b m s₀ { s with NormA := ν } fuel =
      LinearSolve a b m s₀ s fuel := by
  simp only [LinearSolve, defaultSettings_normA, iterate_normA]

/-- C10: the driver's identity fallback for preconditioner operations is keyed
solely on PSolve being absent: with settings.PSolve = nil, both a PSolve and a
PSolveTrans request copy Src into Dst and leave the stats (in particular the
psolve counter) untouched, whatever callback sits in PSolveTrans. -/
theorem c10_psolve_nil_identity (a : MatrixOps) (b : Vec) (bn : ℝ) (s : Settings)
    (pt : Option PCallback) (ctx : Context) (st : Stats) :
    dispatch .PSolve a b bn { s with PSolve := none } ctx st =
      .dcont { ctx with Dst := copyVec ctx.Dst ctx.Src } st ∧
    dispatch .PSolveTrans a b bn { s with PSolve := none, PSolveTrans := pt } ctx st =
      .dcont { ctx with Dst := copyVec ctx.Dst ctx.Src } st :=
  ⟨rfl, rfl⟩

/-- C1 (counterexample): the claim that CheckResidualNorm sets Converged iff
residual_norm / max(normb, 1) < tolerance fails when 0 < normb < 1.  With
b = [1/2], residual norm 3/10 and tolerance 1/2, the driver divides by
normb = 1/2 and leaves Converged false, while the spec's max-formula holds. -/
theorem c1_max_formula_counterexample :
    dispatch .CheckResidualNorm ⟨none, none⟩ [(1 : ℝ) / 2] (bnormOf [(1 : ℝ) / 2])
        { Tolerance := 1 / 2 } ⟨[0], [0], 3 / 10, false, [], []⟩ {} =
      .dcont ⟨[0], [0], 3 / 10, false, [], []⟩ {} ∧
    specCheckConverged [(1 : ℝ) / 2] (3 / 10) (1 / 2) := by
  have hb : bnormOf [(1 : ℝ) / 2] = 1 / 2 := by
    simp [bnormOf, norm2_singleton]
  constructor
  · simp only [dispatch, hb]
    norm_num
  · simp only [specCheckConverged, norm2_singleton]
    rw [abs_of_nonneg (by norm_num)]
    rw [max_eq_right (by norm_num)]
    norm_num

/-- C1 (amended): on CheckResidualNorm the driver sets Converged to
residual_norm / b' < tolerance where b' is the 2-norm of b, replaced by 1 when
it is zero; this agrees with the spec's residual_norm / max(normb, 1) formula
exactly when normb = 0 or normb ≥ 1. -/
theorem c1_converged_amended (a : MatrixOps) (b : Vec) (s : Settings)
    (ctx : Context) (st : Stats)
    (hb : norm2 b = 0 ∨ 1 ≤ norm2 b) :
    dispatch .CheckResidualNorm a b (bnormOf b) s ctx st =
      .dcont { ctx with Converged :=
        if ctx.ResidualNorm / max (norm2 b) 1 < s.Tolerance then true else false } st := by
  rcases hb with h | h
  · simp [dispatch, bnormOf, h]
  · have h0 : norm2 b ≠ 0 := by linarith
    have hm : max (norm2 b) 1 = norm2 b := max_eq_left h
    simp [dispatch, bnormOf, h0, hm]

/-- C1 (witness): the amended statement applied at b = [1], residual norm
3/10, tolerance 1/2. -/
theorem c1_converged_amended_witness :
    (norm2 [(1 : ℝ)] = 0 ∨ 1 ≤ norm2 [(1 : ℝ)]) ∧
    dispatch .CheckResidualNorm ⟨none, none⟩ [(1 : ℝ)] (bnormOf [(1 : ℝ)])
        { Tolerance := 1 / 2 } ⟨[0], [0], 3 / 10, false, [], []⟩ {} =
      .dcont { X := [0], Residual := [0], ResidualNorm := 3 / 10,
               Converged := if (3 / 10 : ℝ) / max (norm2 [(1 : ℝ)]) 1 < 1 / 2
                            then true else false,
               Src := [], Dst := [] } {} := by
  have hb : (norm2 [(1 : ℝ)] = 0 ∨ 1 ≤ norm2 [(1 : ℝ)]) :=
    Or.inr (by simp [norm2_singleton])
  exact ⟨hb, c1_converged_amended _ _ _ _ _ hb⟩

/-- C2: the code never reads NormA.  First part: the entire solve is
independent of the NormA setting.  Second part: at a concrete state with
NormA = 4, x = [1], b = [2], residual norm 3/2 and tolerance 1/2, the
documented criterion residual norm < tolerance·(NormA·normx + normb) holds,
yet the driver's CheckResidualNorm leaves Converged false because it computes
residual_norm / normb < tolerance regardless of NormA. -/
theorem c2_normA_ignored :
    (∀ (σ : Type) (a : MatrixOps) (b : Vec) (m : Method σ) (s₀ : σ)
       (s : Settings) (ν : ℝ) (fuel : ℕ),
      LinearSolve a b m s₀ { s with NormA := ν } fuel =
        LinearSolve a b m s₀ s fuel) ∧
    (dispatch .CheckResidualNorm ⟨none, none⟩ [(2 : ℝ)] (bnormOf [(2 : ℝ)])
        { Tolerance := 1 / 2, NormA := 4 } ⟨[1], [0], 3 / 2, false, [], []⟩ {} =
      .dcont ⟨[1], [0], 3 / 2, false, [], []⟩ {} ∧
     specNormACriterion 4 [(1 : ℝ)] [(2 : ℝ)] (3 / 2) (1 / 2)) := by
  refine ⟨fun σ a b m s₀ s ν fuel => LinearSolve_normA a b m s₀ s ν fuel, ?_, ?_⟩
  · have hb : bnormOf [(2 : ℝ)] = 2 := by
      simp [bnormOf, norm2_singleton]
    simp only [dispatch, hb]
    norm_num
  · simp only [specNormACriterion, norm2_singleton]
    rw [abs_of_nonneg (by norm_num : (0:ℝ) ≤ 1),
        abs_of_nonneg (by norm_num : (0:ℝ) ≤ 2)]
    norm_num

/-- C5 (counterexample): requesting MatTransVec without a MatTransVec callback
(or PSolveTrans with PSolve set but PSolveTrans nil) does not produce a
normally returned MissingOperator error: the dispatch panics (a nil function
call), and a whole BiCG solve with a transpose-less operator panics rather
than returning an error with statistics. -/
theorem c5_missing_operator_counterexample :
    dispatch .MatTransVec ⟨some (fun v => v), none⟩ [(1 : ℝ)] 1 {}
        ⟨[0], [1], 1, false, [1], [0]⟩ {} = .dpanic ∧
    dispatch .PSolveTrans ⟨some (fun v => v), none⟩ [(1 : ℝ)] 1
        { PSolve := some copyCB } ⟨[0], [1], 1, false, [1], [0]⟩ {} = .dpanic ∧
    LinearSolve ⟨some (fun v => v), none⟩ [(1 : ℝ)] BiCG.method {}
        { Tolerance := 1 / 2 } 10 = some .panic := by
  refine ⟨rfl, rfl, ?_⟩
  norm_num [LinearSolve, wrapLoop, iterate, iterLoop, dispatch, BiCG.method,
    BiCG.Init, BiCG.Iterate, defaultSettings, x0Mismatch, initialX,
    initialResidual, bnormOf, norm2_singleton, copyVec, reuseVec, dot,
    addScaledTo, dlamchE]

/-- C5 (amended): the driver performs no nil check.  A MatTransVec request
with a nil MatTransVec callback, and a PSolveTrans request with PSolve set but
PSolveTrans nil, dereference the nil function: a panic, never a returned
MissingOperator error (no such error value exists in the code). -/
theorem c5_nil_trans_panics :
    (∀ (mv : Option (Vec → Vec)) (b : Vec) (bn : ℝ) (s : Settings)
       (ctx : Context) (st : Stats),
      dispatch .MatTransVec ⟨mv, none⟩ b bn s ctx st = .dpanic) ∧
    (∀ (a : MatrixOps) (b : Vec) (bn : ℝ) (s : Settings) (p : PCallback)
       (ctx : Context) (st : Stats),
      dispatch .PSolveTrans a b bn { s with PSolve := some p, PSolveTrans := none }
        ctx st = .dpanic) :=
  ⟨fun _ _ _ _ _ _ => rfl, fun _ _ _ _ _ _ _ => rfl⟩

/-- C3: whenever BiCGSTAB.Iterate returns (does not panic), it returns the
rho-breakdown error exactly when called at the start of an iteration
(resume = 1) with rho = rt·r < eps² (rt freshly copied from the residual on
the first iteration), the omega-breakdown error exactly when called at the
final convergence check (resume = 7) with Converged false and the absolute
value of omega < eps², and a nil error in every other returning state
(eps = 2^(-53)). -/
theorem c3_bicgstab_errors (bb : BiCGSTAB) (ctx : Context) (out : MOut BiCGSTAB)
    (h : BiCGSTAB.Iterate bb ctx = some out) :
    (out.err = some .rhoBreakdown ↔
      bb.resume = 1 ∧
        dot (if bb.first then copyVec bb.rt ctx.Residual else bb.rt) ctx.Residual <
          dlamchE * dlamchE) ∧
    (out.err = some .omegaBreakdown ↔
      bb.resume = 7 ∧ ctx.Converged = false ∧ |bb.omega| < dlamchE * dlamchE) ∧
    (out.err ≠ none →
      out.err = some .rhoBreakdown ∨ out.err = some .omegaBreakdown) := by
  simp only [BiCGSTAB.Iterate] at h
  split_ifs at h <;> (rw [Option.some_inj] at h; subst h; simp_all [not_lt])

/-- C3 (witness): at the state resume = 1, first = true, rt = [0] with residual
[0], Iterate returns the rho-breakdown error, and the characterization holds
there. -/
theorem c3_bicgstab_errors_witness :
    (BiCGSTAB.Iterate { first := true, resume := 1, rt := [0] }
        ⟨[0], [0], 0, false, [], []⟩ =
      some ⟨{ first := true, resume := 0, rho := 0, rt := [0] },
            ⟨[0], [0], 0, false, [], []⟩, .NoOperation, some .rhoBreakdown⟩) ∧
    ((some Err.rhoBreakdown = some Err.rhoBreakdown ↔
      ({ first := true, resume := 1, rt := [0] } : BiCGSTAB).resume = 1 ∧
        dot (if ({ first := true, resume := 1, rt := [0] } : BiCGSTAB).first
             then copyVec ({ first := true, resume := 1, rt := [0] } : BiCGSTAB).rt [0]
             else ({ first := true, resume := 1, rt := [0] } : BiCGSTAB).rt) [0] <
          dlamchE * dlamchE) ∧
     (some Err.rhoBreakdown = some Err.omegaBreakdown ↔
      ({ first := true, resume := 1, rt := [0] } : BiCGSTAB).resume = 7 ∧
        false = false ∧
        |({ first := true, resume := 1, rt := [0] } : BiCGSTAB).omega| <
          dlamchE * dlamchE) ∧
     (some Err.rhoBreakdown ≠ none →
      some Err.rhoBreakdown = some Err.rhoBreakdown ∨
        some Err.rhoBreakdown = some Err.omegaBreakdown)) := by
  have h : BiCGSTAB.Iterate { first := true, resume := 1, rt := [0] }
      ⟨[0], [0], 0, false, [], []⟩ =
    some ⟨{ first := true, resume := 0, rho := 0, rt := [0] },
          ⟨[0], [0], 0, false, [], []⟩, .NoOperation, some .rhoBreakdown⟩ := by
    norm_num [BiCGSTAB.Iterate, copyVec, dot, dlamchE]
  exact ⟨h, c3_bicgstab_errors _ _ _ h⟩

set_option maxHeartbeats 1000000 in
/-- C4: for each of CG, BiCG, BiCGSTAB and GMRES, once Iterate has returned
EndIteration with Converged true, the resume label is 0, and any further
Iterate call without an intervening Init panics (returns none). -/
theorem c4_iterate_after_converged_panics :
    (∀ (cg : CG) (ctx : ContextV) (out : MOutV CG),
      CG.Iterate cg ctx = some out → out.op = .EndIteration →
      out.ctx.Converged = true → ∀ ctx2, CG.Iterate out.st ctx2 = none) ∧
    (∀ (bb : BiCG) (ctx : Context) (out : MOut BiCG),
      BiCG.Iterate bb ctx = some out → out.op = .EndIteration →
      out.ctx.Converged = true → ∀ ctx2, BiCG.Iterate out.st ctx2 = none) ∧
    (∀ (bb : BiCGSTAB) (ctx : Context) (out : MOut BiCGSTAB),
      BiCGSTAB.Iterate bb ctx = some out → out.op = .EndIteration →
      out.ctx.Converged = true → ∀ ctx2, BiCGSTAB.Iterate out.st ctx2 = none) ∧
    (∀ (g : GMRES) (ctx : Context) (out : MOut GMRES),
      GMRES.Iterate g ctx = some out → out.op = .EndIteration →
      out.ctx.Converged = true → ∀ ctx2, GMRES.Iterate out.st ctx2 = none) := by
  refine ⟨?_, ?_, ?_, ?_⟩
  · intro cg ctx out h hop hcv ctx2
    simp only [CG.Iterate] at h
    split_ifs at h <;>
      (rw [Option.some_inj] at h; subst h; simp_all [CG.Iterate])
  · intro bb ctx out h hop hcv ctx2
    simp only [BiCG.Iterate] at h
    split_ifs at h <;>
      (rw [Option.some_inj] at h; subst h; simp_all [BiCG.Iterate])
  · intro bb ctx out h hop hcv ctx2
    simp only [BiCGSTAB.Iterate] at h
    split_ifs at h <;>
      (rw [Option.some_inj] at h; subst h; simp_all [BiCGSTAB.Iterate])
  · intro g ctx out h hop hcv ctx2
    have hres : out.st.resume = 0 := by
      simp only [GMRES.Iterate, GMRES.iterate3] at h
      generalize hgr : g.resume = r at h
      rcases r with _|_|_|_|_|_|_|_|_|_|r
      · norm_num at h
        exact Option.noConfusion h
      · norm_num at h
        rw [← h] at hop
        exact Operation.noConfusion hop
      · norm_num at h
        by_cases h0 : 0 = g.Restart
        · rw [if_pos h0, Option.some_inj] at h
          rw [← h] at hop
          exact Operation.noConfusion hop
        · rw [if_neg h0, Option.some_inj] at h
          rw [← h] at hop
          exact Operation.noConfusion hop
      · norm_num at h
        by_cases h0 : g.i = g.Restart
        · rw [if_pos h0, Option.some_inj] at h
          rw [← h] at hop
          exact Operation.noConfusion hop
        · rw [if_neg h0, Option.some_inj] at h
          rw [← h] at hop
          exact Operation.noConfusion hop
      · norm_num at h
        rw [← h] at hop
        exact Operation.noConfusion hop
      · norm_num at h
        rw [← h] at hop
        exact Operation.noConfusion hop
      · norm_num at h
        rcases hcc : ctx.Converged with _ | _
        · rw [hcc] at h
          norm_num at h
          rw [← h] at hop
          exact Operation.noConfusion hop
        · rw [hcc] at h
          norm_num at h
          rw [← h]
      · norm_num at h
        rw [← h] at hop
        exact Operation.noConfusion hop
      · norm_num at h
        rw [← h] at hop
        exact Operation.noConfusion hop
      · norm_num at h
        rcases hcc : ctx.Converged with _ | _
        · rw [hcc] at h
          norm_num at h
          rw [← h] at hcv
          exact absurd hcv (by simp [hcc])
        · rw [hcc] at h
          norm_num at h
          rw [← h]
      · norm_num at h
        exact Option.noConfusion h
    have hnone : ∀ (g' : GMRES) (c : Context), g'.resume = 0 →
        GMRES.Iterate g' c = none := by
      intro g' c hg
      simp only [GMRES.Iterate, hg]
      norm_num
    exact hnone out.st ctx2 hres

/-- C4 (witness): each method, taken at its convergence-check resume label
with Converged true, returns EndIteration and then panics on the next call. -/
theorem c4_iterate_after_converged_panics_witness :
    (CG.Iterate { resume := 4 } ⟨[], [], true, [], -1, -1⟩ =
        some ⟨{ resume := 0 }, ⟨[], [], true, [], -1, -1⟩, .EndIteration, none⟩ ∧
      CG.Iterate ({ resume := 0 } : CG) ⟨[], [], true, [], -1, -1⟩ = none) ∧
    (BiCG.Iterate { resume := 6 } ⟨[], [], 0, true, [], []⟩ =
        some ⟨{ resume := 0 }, ⟨[], [], 0, true, [], []⟩, .EndIteration, none⟩ ∧
      BiCG.Iterate ({ resume := 0 } : BiCG) ⟨[], [], 0, true, [], []⟩ = none) ∧
    (BiCGSTAB.Iterate { resume := 7 } ⟨[], [], 0, true, [], []⟩ =
        some ⟨{ resume := 0 }, ⟨[], [], 0, true, [], []⟩, .EndIteration, none⟩ ∧
      BiCGSTAB.Iterate ({ resume := 0 } : BiCGSTAB) ⟨[], [], 0, true, [], []⟩ = none) ∧
    (GMRES.Iterate { resume := 9 } ⟨[], [], 0, true, [], []⟩ =
        some ⟨{ resume := 0 }, ⟨[], [], 0, true, [], []⟩, .EndIteration, none⟩ ∧
      GMRES.Iterate ({ resume := 0 } : GMRES) ⟨[], [], 0, true, [], []⟩ = none) := by
  have h1 : CG.Iterate { resume := 4 } ⟨[], [], true, [], -1, -1⟩ =
      some ⟨{ resume := 0 }, ⟨[], [], true, [], -1, -1⟩, .EndIteration, none⟩ := by
    simp [CG.Iterate]
  have h2 : BiCG.Iterate { resume := 6 } ⟨[], [], 0, true, [], []⟩ =
      some ⟨{ resume := 0 }, ⟨[], [], 0, true, [], []⟩, .EndIteration, none⟩ := by
    simp [BiCG.Iterate]
  have h3 : BiCGSTAB.Iterate { resume := 7 } ⟨[], [], 0, true, [], []⟩ =
      some ⟨{ resume := 0 }, ⟨[], [], 0, true, [], []⟩, .EndIteration, none⟩ := by
    simp [BiCGSTAB.Iterate]
  have h4 : GMRES.Iterate { resume := 9 } ⟨[], [], 0, true, [], []⟩ =
      some ⟨{ resume := 0 }, ⟨[], [], 0, true, [], []⟩, .EndIteration, none⟩ := by
    simp [GMRES.Iterate]
  exact ⟨⟨h1, c4_iterate_after_converged_panics.1 _ _ _ h1 rfl rfl _⟩,
         ⟨h2, c4_iterate_after_converged_panics.2.1 _ _ _ h2 rfl rfl _⟩,
         ⟨h3, c4_iterate_after_converged_panics.2.2.1 _ _ _ h3 rfl rfl _⟩,
         ⟨h4, c4_iterate_after_converged_panics.2.2.2 _ _ _ h4 rfl rfl _⟩⟩

/-- C6 (counterexample): a tolerance left unset (zero) is defaulted by
solve.go's defaultSettings to 1e-6, not to 1e-8 (the 1e-8 default belongs to
the older iterative.go driver). -/
theorem c6_default_tolerance_counterexample :
    (defaultSettings {} 5).Tolerance = 1e-6 ∧ (1e-6 : ℝ) ≠ 1e-8 := by
  constructor
  · rw [defaultSettings_Tolerance]
    norm_num
  · norm_num

/-- C6 (amended): an explicit tolerance passes defaulting unchanged and an
unset one becomes 1e-6 in solve.go (1e-8 in iterative.go); LinearSolve panics
before any iteration work when the effective tolerance is outside
[2^(-53), 1), and accepts any tolerance in that range (here on a system whose
initial residual already meets it, so the result is immediate success). -/
theorem c6_tolerance_amended :
    (∀ (s : Settings) (dim : ℕ), s.Tolerance ≠ 0 →
      (defaultSettings s dim).Tolerance = s.Tolerance) ∧
    (∀ (s : Settings) (dim : ℕ), s.Tolerance = 0 →
      (defaultSettings s dim).Tolerance = 1e-6) ∧
    (∀ (s : Settings) (dim : ℕ), s.Tolerance = 0 →
      (OldAPI.defaultSettings s dim).Tolerance = 1e-8) ∧
    (∀ (σ : Type) (f : Vec → Vec) (mt : Option (Vec → Vec)) (m : Method σ)
       (s₀ : σ) (b : Vec) (s : Settings) (fuel : ℕ),
      b ≠ [] → x0Mismatch s.X0 b.length = false →
      ((defaultSettings s b.length).Tolerance < dlamchE ∨
        1 ≤ (defaultSettings s b.length).Tolerance) →
      LinearSolve ⟨some f, mt⟩ b m s₀ s fuel = some .panic) ∧
    (∀ (σ : Type) (m : Method σ) (s₀ : σ) (t : ℝ) (fuel : ℕ),
      dlamchE ≤ t → t < 1 →
      LinearSolve ⟨some (fun v => v), none⟩ [(1 : ℝ)] m s₀
        { X0 := some [1], Tolerance := t } fuel =
        some (.ok ⟨[1], { Iterations := 0, MatVec := 1, PSolve := 0,
                          ResidualNorm := 0 }⟩ none)) := by
  refine ⟨?_, ?_, ?_, ?_, ?_⟩
  · intro s dim h
    rw [defaultSettings_Tolerance]
    simp [h]
  · intro s dim h
    rw [defaultSettings_Tolerance]
    simp [h]
  · intro s dim h
    rw [oldDefaultSettings_Tolerance]
    simp [h]
  · intro σ f mt m s₀ b s fuel hb hx0 htol
    have hdim : ¬ (b.length = 0) := by
      simpa [List.length_eq_zero] using hb
    simp [LinearSolve, hx0, hdim, htol]
  · intro σ m s₀ t fuel h1 h2
    have htpos : (0 : ℝ) < t := lt_of_lt_of_le (by norm_num [dlamchE]) h1
    have ht0 : t ≠ 0 := ne_of_gt htpos
    have hcond : ¬ (t < dlamchE ∨ 1 ≤ t) := by
      push_neg
      exact ⟨h1, h2⟩
    have hge : ¬ ((0 : ℝ) ≥ t) := not_le.mpr htpos
    norm_num [LinearSolve, defaultSettings, ht0, hcond, hge, x0Mismatch,
      initialX, initialResidual, copyVec, addScaledTo, norm2_singleton]

/-- C6 (witness): the amended statement at concrete inputs: default 1e-6 for
unset tolerance, a panic at the out-of-range tolerance 2, and an immediate
success at the in-range tolerance 1/2. -/
theorem c6_tolerance_amended_witness :
    ((({} : Settings)).Tolerance = 0 ∧ (defaultSettings {} 7).Tolerance = 1e-6) ∧
    (([(1 : ℝ)] ≠ ([] : Vec)) ∧ x0Mismatch (none) 1 = false ∧
      (((defaultSettings { Tolerance := 2 } 1).Tolerance < dlamchE ∨
        1 ≤ (defaultSettings { Tolerance := 2 } 1).Tolerance)) ∧
      LinearSolve ⟨some (fun v => v), none⟩ [(1 : ℝ)] BiCGSTAB.method {}
        { Tolerance := 2 } 3 = some .panic) ∧
    ((dlamchE ≤ (1 / 2 : ℝ)) ∧ ((1 / 2 : ℝ) < 1) ∧
      LinearSolve ⟨some (fun v => v), none⟩ [(1 : ℝ)] BiCGSTAB.method {}
        { X0 := some [1], Tolerance := 1 / 2 } 3 =
        some (.ok ⟨[1], { Iterations := 0, MatVec := 1, PSolve := 0,
                          ResidualNorm := 0 }⟩ none)) := by
  have ha : (({} : Settings)).Tolerance = 0 := rfl
  have hb : ([(1 : ℝ)] ≠ ([] : Vec)) := by simp
  have hx : x0Mismatch (none) 1 = false := rfl
  have ht : ((defaultSettings { Tolerance := 2 } 1).Tolerance < dlamchE ∨
      1 ≤ (defaultSettings { Tolerance := 2 } 1).Tolerance) := by
    rw [defaultSettings_Tolerance]
    norm_num
  have h1 : dlamchE ≤ (1 / 2 : ℝ) := by norm_num [dlamchE]
  have h2 : (1 / 2 : ℝ) < 1 := by norm_num
  exact ⟨⟨ha, c6_tolerance_amended.2.1 {} 7 ha⟩,
         ⟨hb, hx, ht, c6_tolerance_amended.2.2.2.1 _ _ _ BiCGSTAB.method {} _ _ 3 hb hx ht⟩,
         ⟨h1, h2, c6_tolerance_amended.2.2.2.2 _ BiCGSTAB.method {} _ 3 h1 h2⟩⟩

/-- C7: when the 2-norm of the initial residual is already below the
effective tolerance, LinearSolve returns success immediately with zero
iterations and without invoking the method (the result is the same for every
method and every fuel, including zero fuel); in particular this happens when
x0 is given and the operator maps it exactly to b. -/
theorem c7_initial_residual_skip :
    (∀ (σ : Type) (m : Method σ) (s₀ : σ) (f : Vec → Vec) (mt : Option (Vec → Vec))
       (b : Vec) (s : Settings) (fuel : ℕ),
      b ≠ [] →
      x0Mismatch s.X0 b.length = false →
      dlamchE ≤ (defaultSettings s b.length).Tolerance →
      (defaultSettings s b.length).Tolerance < 1 →
      norm2 (initialResidual f b s.X0) < (defaultSettings s b.length).Tolerance →
      LinearSolve ⟨some f, mt⟩ b m s₀ s fuel =
        some (.ok ⟨initialX b.length s.X0,
          { Iterations := 0,
            MatVec := match s.X0 with | some _ => 1 | none => 0,
            PSolve := 0, ResidualNorm := 0 }⟩ none)) ∧
    (∀ (σ : Type) (m : Method σ) (s₀ : σ) (f : Vec → Vec) (mt : Option (Vec → Vec))
       (b : Vec) (x0 : Vec) (s : Settings) (fuel : ℕ),
      s.X0 = some x0 →
      b ≠ [] →
      x0Mismatch s.X0 b.length = false →
      dlamchE ≤ (defaultSettings s b.length).Tolerance →
      (defaultSettings s b.length).Tolerance < 1 →
      f (initialX b.length s.X0) = b →
      LinearSolve ⟨some f, mt⟩ b m s₀ s fuel =
        some (.ok ⟨initialX b.length s.X0,
          { Iterations := 0, MatVec := 1, PSolve := 0, ResidualNorm := 0 }⟩ none)) := by
  have main : ∀ (σ : Type) (m : Method σ) (s₀ : σ) (f : Vec → Vec)
      (mt : Option (Vec → Vec)) (b : Vec) (s : Settings) (fuel : ℕ),
      b ≠ [] →
      x0Mismatch s.X0 b.length = false →
      dlamchE ≤ (defaultSettings s b.length).Tolerance →
      (defaultSettings s b.length).Tolerance < 1 →
      norm2 (initialResidual f b s.X0) < (defaultSettings s b.length).Tolerance →
      LinearSolve ⟨some f, mt⟩ b m s₀ s fuel =
        some (.ok ⟨initialX b.length s.X0,
          { Iterations := 0,
            MatVec := match s.X0 with | some _ => 1 | none => 0,
            PSolve := 0, ResidualNorm := 0 }⟩ none) := by
    intro σ m s₀ f mt b s fuel hb hx0 h1 h2 hres
    have hdim : ¬ (b.length = 0) := by
      simpa [List.length_eq_zero] using hb
    have hcond : ¬ ((defaultSettings s b.length).Tolerance < dlamchE ∨
        1 ≤ (defaultSettings s b.length).Tolerance) := by
      push_neg
      exact ⟨h1, h2⟩
    have hge : ¬ (norm2 (initialResidual f b s.X0) ≥
        (defaultSettings s b.length).Tolerance) := not_le.mpr hres
    simp only [LinearSolve, defaultSettings_X0]
    simp only [hx0, hdim, hcond, hge, Bool.false_eq_true, if_false, ite_false]
    cases hX : s.X0 with
    | none => simp [hX]
    | some x0 => simp [hX]
  refine ⟨main, ?_⟩
  intro σ m s₀ f mt b x0 s fuel hX hb hx0 h1 h2 hAx
  have hres : norm2 (initialResidual f b s.X0) <
      (defaultSettings s b.length).Tolerance := by
    have : initialResidual f b s.X0 = List.replicate b.length 0 := by
      rw [hX]
      simp only [initialResidual]
      rw [← hX, hAx]
      exact addScaledTo_cancel b
    rw [this, norm2_replicate_zero]
    exact lt_of_lt_of_le (by norm_num [dlamchE]) h1
  have := main σ m s₀ f mt b s fuel hb hx0 h1 h2 hres
  rw [this, hX]

/-- C7 (witness): with the identity operator, b = [1] and x0 = [1] the initial
residual is zero and the solve returns x0 in zero iterations. -/
theorem c7_initial_residual_skip_witness :
    (({ X0 := some [1], Tolerance := 1 / 2 } : Settings).X0 = some [1] ∧
      ([(1 : ℝ)] ≠ ([] : Vec)) ∧
      x0Mismatch ({ X0 := some [1], Tolerance := 1 / 2 } : Settings).X0 1 = false ∧
      dlamchE ≤ (defaultSettings { X0 := some [1], Tolerance := 1 / 2 } 1).Tolerance ∧
      (defaultSettings { X0 := some [1], Tolerance := 1 / 2 } 1).Tolerance < 1 ∧
      (fun v => v) (initialX 1 ({ X0 := some [1], Tolerance := 1 / 2 } : Settings).X0)
        = [(1 : ℝ)]) ∧
    LinearSolve ⟨some (fun v => v), none⟩ [(1 : ℝ)] BiCGSTAB.method {}
        { X0 := some [1], Tolerance := 1 / 2 } 0 =
      some (.ok ⟨initialX 1 ({ X0 := some [1], Tolerance := 1 / 2 } : Settings).X0,
        { Iterations := 0, MatVec := 1, PSolve := 0, ResidualNorm := 0 }⟩ none) := by
  have hX : ({ X0 := some [1], Tolerance := 1 / 2 } : Settings).X0 = some [1] := rfl
  have hb : ([(1 : ℝ)] ≠ ([] : Vec)) := by simp
  have hx0 : x0Mismatch ({ X0 := some [1], Tolerance := 1 / 2 } : Settings).X0 1
      = false := rfl
  have h1 : dlamchE ≤
      (defaultSettings { X0 := some [1], Tolerance := 1 / 2 } 1).Tolerance := by
    rw [defaultSettings_Tolerance]
    norm_num [dlamchE]
  have h2 : (defaultSettings { X0 := some [1], Tolerance := 1 / 2 } 1).Tolerance
      < 1 := by
    rw [defaultSettings_Tolerance]
    norm_num
  have hAx : (fun v => v)
      (initialX 1 ({ X0 := some [1], Tolerance := 1 / 2 } : Settings).X0)
      = [(1 : ℝ)] := by
    norm_num [initialX, copyVec]
  exact ⟨⟨hX, hb, hx0, h1, h2, hAx⟩,
    c7_initial_residual_skip.2 _ BiCGSTAB.method {} _ none _ [1] _ 0
      hX hb hx0 h1 h2 hAx⟩

theorem defaultSettings_psolve_update (s : Settings) (p q : Option PCallback)
    (dim : ℕ) :
    defaultSettings { s with PSolve := p, PSolveTrans := q } dim =
      { defaultSettings s dim with PSolve := p, PSolveTrans := q } := by
  by_cases h1 : s.Tolerance = 0 <;> by_cases h2 : s.MaxIterations = 0 <;>
    simp [defaultSettings, h1, h2]

theorem dispatch_psolve_copy (op : Operation) (a : MatrixOps) (b : Vec) (bn : ℝ)
    (sA sB : Settings) (ctx : Context) (stA stB : Stats)
    (hTol : sA.Tolerance = sB.Tolerance)
    (hMax : sA.MaxIterations = sB.MaxIterations)
    (hpA : sA.PSolve = none) (hpB : sB.PSolve = some copyCB)
    (hptB : sB.PSolveTrans = some copyCB)
    (hst : zeroPSStats stA = zeroPSStats stB) :
    zeroPSD (dispatch op a b bn sA ctx stA) =
      zeroPSD (dispatch op a b bn sB ctx stB) := by
  obtain ⟨hI, hM, hR⟩ : stA.Iterations = stB.Iterations ∧
      stA.MatVec = stB.MatVec ∧ stA.ResidualNorm = stB.ResidualNorm := by
    have h := hst
    simp only [zeroPSStats, Stats.mk.injEq] at h
    exact ⟨h.1, h.2.1, h.2.2.2⟩
  cases op with
  | NoOperation => simpa [dispatch, zeroPSD] using hst
  | ComputeResidual =>
    cases hv : a.MatVec <;> simp [dispatch, hv, zeroPSD, zeroPSStats, hI, hM, hR]
  | MatVec =>
    cases hv : a.MatVec <;> simp [dispatch, hv, zeroPSD, zeroPSStats, hI, hM, hR]
  | MatTransVec =>
    cases hv : a.MatTransVec <;> simp [dispatch, hv, zeroPSD, zeroPSStats, hI, hM, hR]
  | PSolve =>
    simp [dispatch, hpA, hpB, copyCB, zeroPSD, zeroPSStats, hI, hM, hR]
  | PSolveTrans =>
    simp [dispatch, hpA, hpB, hptB, copyCB, zeroPSD, zeroPSStats, hI, hM, hR]
  | CheckResidualNorm => simpa [dispatch, hTol, zeroPSD] using hst
  | CheckResidual => rfl
  | EndIteration =>
    simp only [dispatch, hI, hR, hMax]
    by_cases hc : ctx.Converged = true
    · simp [hc, zeroPSD, zeroPSStats, hI, hM, hR]
    · by_cases hmax : stB.Iterations + 1 = sB.MaxIterations
      · simp [hc, hmax, zeroPSD, zeroPSStats, hI, hM, hR]
      · simp [hc, hmax, zeroPSD, zeroPSStats, hI, hM, hR]

theorem iterLoop_psolve_copy {σ : Type} (a : MatrixOps) (b : Vec)
    (sA sB : Settings) (m : Method σ) (bn : ℝ)
    (hTol : sA.Tolerance = sB.Tolerance)
    (hMax : sA.MaxIterations = sB.MaxIterations)
    (hpA : sA.PSolve = none) (hpB : sB.PSolve = some copyCB)
    (hptB : sB.PSolveTrans = some copyCB) :
    ∀ (fuel : ℕ) (st : σ) (ctx : Context) (stA stB : Stats),
      zeroPSStats stA = zeroPSStats stB →
      (iterLoop a b sA m bn fuel st ctx stA).map zeroPSLoop =
      (iterLoop a b sB m bn fuel st ctx stB).map zeroPSLoop := by
  intro fuel
  induction fuel with
  | zero => intro st ctx stA stB hst; rfl
  | succ k ih =>
    intro st ctx stA stB hst
    simp only [iterLoop]
    cases hi : m.iterate st ctx with
    | none => rfl
    | some out =>
      dsimp only
      cases he : out.err with
      | some e => simp [zeroPSLoop, hst]
      | none =>
        dsimp only
        have hd := dispatch_psolve_copy out.op a b bn sA sB out.ctx stA stB
          hTol hMax hpA hpB hptB hst
        cases hA : dispatch out.op a b bn sA out.ctx stA with
        | dpanic =>
          cases hB : dispatch out.op a b bn sB out.ctx stB with
          | dpanic => rfl
          | dret e2 ctx2 st2 => rw [hA, hB] at hd; simp [zeroPSD] at hd
          | dcont ctx2 st2 => rw [hA, hB] at hd; simp [zeroPSD] at hd
        | dret e1 ctx1 st1 =>
          cases hB : dispatch out.op a b bn sB out.ctx stB with
          | dpanic => rw [hA, hB] at hd; simp [zeroPSD] at hd
          | dret e2 ctx2 st2 =>
            rw [hA, hB] at hd
            simp only [zeroPSD, DRes.dret.injEq] at hd
            simp [zeroPSLoop, hd.1, hd.2.1, hd.2.2]
          | dcont ctx2 st2 => rw [hA, hB] at hd; simp [zeroPSD] at hd
        | dcont ctx1 st1 =>
          cases hB : dispatch out.op a b bn sB out.ctx stB with
          | dpanic => rw [hA, hB] at hd; simp [zeroPSD] at hd
          | dret e2 ctx2 st2 => rw [hA, hB] at hd; simp [zeroPSD] at hd
          | dcont ctx2 st2 =>
            rw [hA, hB] at hd
            simp only [zeroPSD, DRes.dcont.injEq] at hd
            rw [hd.1]
            exact ih out.st ctx2 st1 st2 hd.2

theorem iterate_psolve_copy {σ : Type} (a : MatrixOps) (b : Vec) (ctx : Context)
    (sA sB : Settings) (m : Method σ) (s₀ : σ) (stA stB : Stats) (fuel : ℕ)
    (hTol : sA.Tolerance = sB.Tolerance)
    (hMax : sA.MaxIterations = sB.MaxIterations)
    (hpA : sA.PSolve = none) (hpB : sB.PSolve = some copyCB)
    (hptB : sB.PSolveTrans = some copyCB)
    (hst : zeroPSStats stA = zeroPSStats stB) :
    (iterate a b ctx sA m s₀ stA fuel).map zeroPSLoop =
    (iterate a b ctx sB m s₀ stB fuel).map zeroPSLoop := by
  simp only [iterate]
  cases m.init s₀ ctx.X.length with
  | none => rfl
  | some s1 =>
    exact iterLoop_psolve_copy a b sA sB m (bnormOf b) hTol hMax hpA hpB hptB
      fuel s1 ctx stA stB hst

theorem wrapLoop_zeroPS (oA oB : Option LoopRes)
    (h : oA.map zeroPSLoop = oB.map zeroPSLoop) :
    (wrapLoop oA).map zeroPSRes = (wrapLoop oB).map zeroPSRes := by
  cases oA with
  | none =>
    cases oB with
    | none => rfl
    | some r2 => simp at h
  | some r1 =>
    cases oB with
    | none => simp at h
    | some r2 =>
      rw [Option.map_some', Option.map_some', Option.some_inj] at h
      cases r1 with
      | panic =>
        cases r2 with
        | panic => rfl
        | ret e2 c2 st2 => simp [zeroPSLoop] at h
      | ret e1 c1 st1 =>
        cases r2 with
        | panic => simp [zeroPSLoop] at h
        | ret e2 c2 st2 =>
          simp only [zeroPSLoop, LoopRes.ret.injEq] at h
          simp [wrapLoop, zeroPSRes, h.1, h.2.1, h.2.2]

/-- C8 (counterexample): one concrete BiCGSTAB solve (identity operator,
b = [1], tolerance 1/2).  With PSolve absent the psolve counter ends at 0;
with PSolve set to the copy callback it ends at 1; everything else in the
outcome is identical, so the two observable outcomes are not equal. -/
theorem c8_psolve_counter_differs :
    LinearSolve ⟨some (fun v => v), none⟩ [(1 : ℝ)] BiCGSTAB.method {}
        { Tolerance := 1 / 2 } 10 =
      some (.ok ⟨[1], { Iterations := 1, MatVec := 1, PSolve := 0,
                        ResidualNorm := 0 }⟩ none) ∧
    LinearSolve ⟨some (fun v => v), none⟩ [(1 : ℝ)] BiCGSTAB.method {}
        { Tolerance := 1 / 2, PSolve := some copyCB } 10 =
      some (.ok ⟨[1], { Iterations := 1, MatVec := 1, PSolve := 1,
                        ResidualNorm := 0 }⟩ none) := by
  constructor <;>
    norm_num [LinearSolve, wrapLoop, iterate, iterLoop, dispatch,
      BiCGSTAB.method, BiCGSTAB.Init, BiCGSTAB.Iterate, defaultSettings,
      x0Mismatch, initialX, initialResidual, bnormOf, norm2_singleton, copyVec,
      copyCB, reuseVec, dot, add, scale, addScaled, addScaledTo, dlamchE,
      norm2_replicate_zero]

/-- C8 (amended): for every operator, right-hand side, method and settings,
a solve with both preconditioner callbacks absent and a solve with both set
to the copy callback produce the same observable outcome except for the
psolve counter, which stays 0 when the callbacks are absent and counts the
serviced requests when they are present. -/
theorem c8_psolve_identity_refinement :
    ∀ (σ : Type) (a : MatrixOps) (b : Vec) (m : Method σ) (s₀ : σ)
      (s : Settings) (fuel : ℕ),
      (LinearSolve a b m s₀ { s with PSolve := none } fuel).map zeroPSRes =
      (LinearSolve a b m s₀
        { s with PSolve := some copyCB, PSolveTrans := some copyCB } fuel).map
        zeroPSRes := by
  intro σ a b m s₀ s fuel
  simp only [LinearSolve]
  cases a.MatVec with
  | none => rfl
  | some f =>
    dsimp only
    simp only [defaultSettings_psolve_update]
    by_cases hx : x0Mismatch s.X0 b.length = true
    · simp [hx]
    · simp only [hx, Bool.false_eq_true, if_false]
      by_cases hd : b.length = 0
      · simp [hd]
      · simp only [hd, if_false]
        by_cases ht : (defaultSettings s b.length).Tolerance < dlamchE ∨
            1 ≤ (defaultSettings s b.length).Tolerance
        · simp [ht]
        · simp only [ht, if_false]
          by_cases hge : (defaultSettings s b.length).Tolerance ≤
              norm2 (initialResidual f b (defaultSettings s b.length).X0)
          · simp only [ge_iff_le, hge, if_true]
            exact wrapLoop_zeroPS _ _
              (iterate_psolve_copy _ _ _ _ _ m s₀ _ _ fuel rfl rfl rfl rfl rfl rfl)
          · simp [hge]

/-- C9 (counterexample): the older driver Solve (iterative.go) does not return
an empty success on a zero-length right-hand side: it panics. -/
theorem c9_old_solve_zero_dim_panics :
    OldAPI.Solve ⟨some (fun v => v), none⟩ [] BiCGSTAB.method {} {} 0 =
      some .panic := rfl

/-- C9 (amended): LinearSolve (solve.go) returns an empty successful Result
with all-zero statistics on a zero-length right-hand side, for every operator,
method and settings with a valid X0; the older Solve (iterative.go) instead
panics on zero dimension. -/
theorem c9_zero_dim_empty_success :
    (∀ (σ : Type) (f : Vec → Vec) (mt : Option (Vec → Vec)) (m : Method σ)
       (s₀ : σ) (s : Settings) (fuel : ℕ),
      LinearSolve ⟨some f, mt⟩ [] m s₀ { s with X0 := none } fuel =
        some (.ok ⟨[], {}⟩ none)) ∧
    (∀ (σ : Type) (f : Vec → Vec) (mt : Option (Vec → Vec)) (m : Method σ)
       (s₀ : σ) (s : Settings) (fuel : ℕ),
      LinearSolve ⟨some f, mt⟩ [] m s₀ { s with X0 := some [] } fuel =
        some (.ok ⟨[], {}⟩ none)) ∧
    (∀ (σ : Type) (f : Vec → Vec) (mt : Option (Vec → Vec)) (m : Method σ)
       (s₀ : σ) (s : Settings) (fuel : ℕ),
      OldAPI.Solve ⟨some f, mt⟩ [] m s₀ s fuel = some .panic) := by
  refine ⟨fun σ f mt m s₀ s fuel => ?_, fun σ f mt m s₀ s fuel => ?_,
    fun σ f mt m s₀ s fuel => rfl⟩
  · simp [LinearSolve, x0Mismatch]
  · simp [LinearSolve, x0Mismatch]

end
